import Mathlib

set_option maxHeartbeats 1000000

/-!
Shallow embedding of the blog publication pipeline of
`src/routes/blog.js`: the DOMPurify-based HTML sanitizer configuration
(lines 14-22 and 30-63), the YouTube embed validator (lines 25-27), the
slug generator inlined in the create and update routes (lines 98-101 and
219-222), and the SQL-backed post workflow: create (lines 71-141),
list (144-159), slug lookup (162-182), update (185-268), categories
(303-318), flag update (321-344), reorder (347-371), and the featured
and trending listings (374-407).

HTML documents are modelled as forests of nodes (the parse tree of the
markup); the sanitizer is a function on forests and the serializer turns
a forest back into a string.  Machine integers do not occur; timestamps
are naturals and manual order positions are integers or NULL.
-/

/-- An HTML document node: a text node, or an element carrying a tag
name, its list of (name, value) pairs, and its child nodes. -/
inductive Node where
  | text : String → Node
  | elem : String → List (String × String) → List Node → Node

mutual

def decEqNode : (a b : Node) → Decidable (a = b)
  | Node.text s, Node.text t =>
      if h : s = t then isTrue (by rw [h])
      else isFalse (by intro hh; injection hh with h1; exact h h1)
  | Node.text _, Node.elem _ _ _ => isFalse (by intro hh; exact Node.noConfusion hh)
  | Node.elem _ _ _, Node.text _ => isFalse (by intro hh; exact Node.noConfusion hh)
  | Node.elem t1 a1 c1, Node.elem t2 a2 c2 =>
      if h1 : t1 = t2 then
        if h2 : a1 = a2 then
          match decEqNodes c1 c2 with
          | isTrue h3 => isTrue (by rw [h1, h2, h3])
          | isFalse h3 => isFalse (by intro hh; injection hh with x y z; exact h3 z)
        else isFalse (by intro hh; injection hh with x y z; exact h2 y)
      else isFalse (by intro hh; injection hh with x y z; exact h1 x)

def decEqNodes : (a b : List Node) → Decidable (a = b)
  | [], [] => isTrue rfl
  | [], _ :: _ => isFalse (by intro hh; exact List.noConfusion hh)
  | _ :: _, [] => isFalse (by intro hh; exact List.noConfusion hh)
  | x :: xs, y :: ys =>
      match decEqNode x y, decEqNodes xs ys with
      | isTrue h1, isTrue h2 => isTrue (by rw [h1, h2])
      | isFalse h1, _ => isFalse (by intro hh; injection hh with a b; exact h1 a)
      | _, isFalse h2 => isFalse (by intro hh; injection hh with a b; exact h2 b)

end

instance : DecidableEq Node := decEqNode

/-- ALLOWED_TAGS from the DOMPurify.setConfig call (blog.js lines
18-21); ADD_TAGS adds iframe, which the list already contains. -/
def allowedTags : List String :=
  ["a", "b", "br", "div", "em", "h1", "h2", "h3", "h4", "h5", "h6",
   "i", "iframe", "img", "li", "ol", "p", "span", "strong", "ul"]

def allowedTag (t : String) : Bool := allowedTags.contains t

/-- Tags whose inner content DOMPurify removes together with the tag
(its default FORBID_CONTENTS set, which no option of blog.js changes);
any other disallowed tag is unwrapped, keeping its sanitized
children.  iframe is on this list but allowed here, so its branch is
never the one taken for iframes. -/
def forbidContentsTags : List String :=
  ["annotation-xml", "audio", "colgroup", "desc", "foreignobject",
   "head", "iframe", "math", "mi", "mn", "mo", "ms", "mtext", "noembed",
   "noframes", "noscript", "plaintext", "script", "style", "svg",
   "template", "thead", "title", "video", "xmp"]

/-- The names permitted on elements: DOMPurify's default allowed names
for HTML, restricted to the names reachable on the allowed tags,
together with the ADD_ATTR names from setConfig (blog.js line 16:
allow, allowfullscreen, frameborder, scrolling, src, title, width,
height).  No name starting with "on" occurs. -/
def allowedAttrNames : List String :=
  ["allow", "allowfullscreen", "alt", "class", "frameborder", "height",
   "href", "hreflang", "id", "loading", "rel", "scrolling", "src",
   "srcset", "style", "title", "width"]

/-- Names DOMPurify never subjects to the URI check (its
URI_SAFE_ATTRIBUTES set, restricted to the allowed names above). -/
def uriSafeNames : List String := ["alt", "class", "id", "style", "title"]

/-- Prefix test on character lists, written to reduce by cases on the
pattern first. -/
def prefOf : List Char → List Char → Bool
  | [], _ => true
  | a :: as, l =>
      match l with
      | [] => false
      | b :: bs => (a == b) && prefOf as bs

/-- The characters DOMPurify strips from a value before the URI check
(its ATTR_WHITESPACE class). -/
def attrWhitespace (c : Char) : Bool :=
  decide (c.toNat ≤ 32 ∨ c.toNat = 160 ∨ c.toNat = 5760 ∨
    c.toNat = 6158 ∨ c.toNat = 8232 ∨ c.toNat = 8233 ∨
    c.toNat = 8287 ∨ c.toNat = 12288)

/-- Whitespace-stripped, lower-cased character list of a value; the URI
checks below are case-insensitive, so they read this form. -/
def cleanAttrValue (v : String) : List Char :=
  (v.toList.filter (fun c => !attrWhitespace c)).map Char.toLower

/-- The character class [a-z+.-] of the ALLOWED_URI_REGEXP, read after
lower-casing. -/
def uriRunChar (c : Char) : Bool :=
  decide ((97 ≤ c.toNat ∧ c.toNat ≤ 122) ∨ c = '+' ∨ c = '.' ∨ c = '-')

/-- The scheme alternatives of the ALLOWED_URI_REGEXP (blog.js line 17):
(f|ht)tps?, mailto, tel, callto, cid, xmpp, xxx, each followed by ':'. -/
def allowedSchemes : List (List Char) :=
  ["ftp:", "ftps:", "http:", "https:", "mailto:", "tel:", "callto:",
   "cid:", "xmpp:", "xxx:"].map String.toList

/-- Decides the ALLOWED_URI_REGEXP from setConfig (blog.js line 17) on a
cleaned value: a listed scheme, or a first character that is not a
letter, or a nonempty [a-z+.-] run whose follower is absent or outside
[a-z+.-:].  Greedy scanning is equivalent to the regex: shortening the
run only exposes followers inside the class. -/
def uriRegexpMatches (cs : List Char) : Bool :=
  allowedSchemes.any (fun sch => prefOf sch cs) ||
  (match cs with
   | [] => false
   | c :: _ => decide (¬ (97 ≤ c.toNat ∧ c.toNat ≤ 122))) ||
  (let run := cs.takeWhile uriRunChar
   let rest := cs.dropWhile uriRunChar
   !run.isEmpty &&
     (match rest with
      | [] => true
      | c :: _ => decide (c ≠ ':')))

/-- Tags on which DOMPurify accepts data: URIs in src and href (its
default DATA_URI_TAGS). -/
def dataUriTags : List String := ["audio", "video", "img", "source", "image", "track"]

def uriAttrName (n : String) : Bool := n == "href" || n == "src"

/-- Whether one (name, value) pair survives DOMPurify's per-name check
under the configuration that is actually live at run time, the one
installed by setConfig (blog.js lines 14-22).  DOMPurify parses a
sanitize call's second argument only while no persistent config is set
(its SET_CONFIG guard), so the per-call object of sanitizeContent
(lines 31-62) — ALLOW_UNKNOWN_PROTOCOLS included — never takes
effect.  A pair passes when its name is allowed and its value is
URI-safe by name, or matches the ALLOWED_URI_REGEXP, or is a data: URI
on a data-URI tag, or is empty. -/
def attrPass (tag : String) (a : String × String) : Bool :=
  allowedAttrNames.contains a.1 &&
  (uriSafeNames.contains a.1 ||
   uriRegexpMatches (cleanAttrValue a.2) ||
   (uriAttrName a.1 && dataUriTags.contains tag &&
     (prefOf "data:".toList (cleanAttrValue a.2))) ||
   a.2 == "")

/-- isValidYouTubeUrl (blog.js lines 25-27): the regex
^https?://(www\.)?youtube\.com/embed/[a-zA-Z0-9_-]+ as an unanchored
prefix match, so one identifier character after /embed/ suffices.
The only reference to this function in the program is the transformTags
object of the sanitize call (lines 40-61); transformTags is an option
of the sanitize-html package, not of DOMPurify, and DOMPurify discards
the whole per-call config once setConfig has run, so this validator is
never consulted at run time. -/
def ytIdChar (c : Char) : Bool :=
  decide ((65 ≤ c.toNat ∧ c.toNat ≤ 90) ∨ (97 ≤ c.toNat ∧ c.toNat ≤ 122) ∨
    (48 ≤ c.toNat ∧ c.toNat ≤ 57) ∨ c = '_' ∨ c = '-')

def ytAfterScheme (cs : List Char) : Bool :=
  let cs := if prefOf "www.".toList cs then cs.drop 4 else cs
  if prefOf "youtube.com/embed/".toList cs then
    match cs.drop 18 with
    | [] => false
    | c :: _ => ytIdChar c
  else false

def isValidYouTubeUrl (url : String) : Bool :=
  if prefOf "https://".toList url.toList then ytAfterScheme (url.toList.drop 8)
  else if prefOf "http://".toList url.toList then ytAfterScheme (url.toList.drop 7)
  else false

/-- sanitizeContent (blog.js lines 30-63) on a parsed forest.  The
per-call config handed to DOMPurify.sanitize is dead: DOMPurify reads a
per-call config only while no persistent config is installed, and the
transformTags key inside it is a sanitize-html option that DOMPurify
does not recognise at all.  The effective behaviour is therefore the
setConfig allowlist filter alone: disallowed tags are unwrapped
(content-forbidden ones dropped whole) and allowed tags — iframe among
them, with no special treatment — keep the pairs passing attrPass. -/
def sanitizeContent : List Node → List Node
  | [] => []
  | Node.text s :: rest => Node.text s :: sanitizeContent rest
  | Node.elem tag attrs children :: rest =>
      (if allowedTag tag then
        [Node.elem tag (attrs.filter (attrPass tag)) (sanitizeContent children)]
      else if forbidContentsTags.contains tag then []
      else sanitizeContent children) ++ sanitizeContent rest
termination_by ns => sizeOf ns
decreasing_by all_goals (simp_wf <;> omega)

/-- Serialization of text, escaping the markup-significant characters. -/
def escTextChar (c : Char) : List Char :=
  if c = '&' then "&amp;".toList
  else if c = '<' then "&lt;".toList
  else if c = '>' then "&gt;".toList
  else [c]

def escAttrChar (c : Char) : List Char :=
  if c = '&' then "&amp;".toList
  else if c = '<' then "&lt;".toList
  else if c = '>' then "&gt;".toList
  else if c = '"' then "&quot;".toList
  else [c]

def escapeText (s : String) : String :=
  String.mk ((s.toList.map escTextChar).flatten)

def escapeAttr (s : String) : String :=
  String.mk ((s.toList.map escAttrChar).flatten)

def renderAttrs (attrs : List (String × String)) : String :=
  attrs.foldl (fun acc a => acc ++ " " ++ a.1 ++ "=\"" ++ escapeAttr a.2 ++ "\"") ""

/-- Tags serialized without children or a closing tag. -/
def voidTags : List String := ["br", "img"]

/-- Serializer from a forest back to markup, as innerHTML reads the
sanitized document. -/
def renderNodes : List Node → String
  | [] => ""
  | Node.text s :: rest => escapeText s ++ renderNodes rest
  | Node.elem tag attrs children :: rest =>
      (if voidTags.contains tag then "<" ++ tag ++ renderAttrs attrs ++ ">"
       else "<" ++ tag ++ renderAttrs attrs ++ ">" ++ renderNodes children ++
         "</" ++ tag ++ ">") ++ renderNodes rest
termination_by ns => sizeOf ns
decreasing_by all_goals (simp_wf <;> omega)

/-- Substring test on serialized output. -/
def infixOf (pat : List Char) : List Char → Bool
  | [] => pat.isEmpty
  | c :: rest => prefOf pat (c :: rest) || infixOf pat rest

def strContainsSub (s pat : String) : Bool := infixOf pat.toList s.toList

/-- The slug computation inlined in the create and update routes
(blog.js lines 98-101 and 219-222): lower-case, replace every maximal
run outside [a-z0-9] by one hyphen, drop one leading and one trailing
hyphen.  Lower-casing is modelled on ASCII letters; other characters
fall outside [a-z0-9] either way. -/
def slugChar (c : Char) : Bool :=
  decide ((97 ≤ c.toNat ∧ c.toNat ≤ 122) ∨ (48 ≤ c.toNat ∧ c.toNat ≤ 57))

/-- Collapse of maximal runs outside [a-z0-9] to one hyphen; the flag
records that the current run has already produced its hyphen. -/
def collapseAux : Bool → List Char → List Char
  | _, [] => []
  | inGap, c :: rest =>
      if slugChar c then c :: collapseAux false rest
      else if inGap then collapseAux true rest
      else '-' :: collapseAux true rest

def collapseRuns (cs : List Char) : List Char := collapseAux false cs

def trimHyphen (cs : List Char) : List Char :=
  let cs1 := match cs with
    | '-' :: r => r
    | _ => cs
  match cs1.reverse with
  | '-' :: r => r.reverse
  | _ => cs1

def slugify (title : String) : String :=
  String.mk (trimHyphen (collapseRuns (title.toList.map Char.toLower)))

/-- One row of the blog_posts table, as the INSERT of the create route
writes it (blog.js lines 116-128).  Timestamps are naturals standing
for NOW() instants; the two ordering columns are NULL or an integer. -/
structure Post where
  id : String
  title : String
  slug : String
  content : List Node
  category : String
  meta_title : String
  meta_description : String
  keywords : String
  featured_image : String
  status : String
  author : String
  created_at : Nat
  updated_at : Nat
  is_featured : Bool
  is_trending : Bool
  featured_order : Option Int
  trending_order : Option Int
deriving DecidableEq

/-- The request body of POST /posts after destructuring (blog.js lines
78-92); absent status is the destructuring default draft, modelled as
none.  The empty string models a missing or empty text field, both
falsy under the `!title` check; content is carried parsed. -/
structure CreateReq where
  title : String
  content : List Node
  category : String
  meta_title : String
  meta_description : String
  keywords : String
  featured_image : String
  status : Option String
  author : String
  is_featured : Bool
  is_trending : Bool
  featured_order : Option Int
  trending_order : Option Int
deriving DecidableEq

/-- The request body of PUT /posts/:id (blog.js lines 192-202). -/
structure UpdateReq where
  title : String
  content : List Node
  category : String
  meta_title : String
  meta_description : String
  keywords : String
  featured_image : String
  status : String
  author : String
deriving DecidableEq

/-- The client-visible failure responses of the routes: the 400 for a
missing required field, the 400 for a colliding slug, and the 404. -/
inductive BlogError where
  | validation : BlogError
  | duplicateSlug : BlogError
  | notFound : BlogError
deriving DecidableEq

/-- POST /posts (blog.js lines 71-141): required-field check, slug
computation, duplicate-slug query, sanitization, INSERT with
created_at = updated_at = NOW().  The fresh uuid is a parameter.  On
success the route answers with the new id and slug. -/
def createPost (db : List Post) (newId : String) (now : Nat) (r : CreateReq) :
    Except BlogError (List Post × String × String) :=
  if r.title = "" ∨ r.content = [] ∨ r.category = "" then
    .error .validation
  else if db.any (fun p => p.slug == slugify r.title) then .error .duplicateSlug
  else
    .ok (db ++ [{
      id := newId, title := r.title, slug := slugify r.title,
      content := sanitizeContent r.content, category := r.category,
      meta_title := r.meta_title, meta_description := r.meta_description,
      keywords := r.keywords, featured_image := r.featured_image,
      status := r.status.getD "draft", author := r.author,
      created_at := now, updated_at := now,
      is_featured := r.is_featured, is_trending := r.is_trending,
      featured_order := r.featured_order,
      trending_order := r.trending_order }], newId, slugify r.title)

/-- PUT /posts/:id (blog.js lines 185-268): required-field check,
existence check, slug recomputation from the new title, duplicate check
against every other id, unconditional re-sanitization, UPDATE of the
listed columns with updated_at = NOW().  Flags, orders and created_at
are not listed and stay as stored. -/
def updatePost (db : List Post) (now : Nat) (pid : String) (r : UpdateReq) :
    Except BlogError (List Post × String) :=
  if r.title = "" ∨ r.content = [] ∨ r.category = "" then
    .error .validation
  else if !(db.any (fun p => p.id == pid)) then .error .notFound
  else if db.any (fun p => p.slug == slugify r.title && p.id != pid) then
    .error .duplicateSlug
  else
    .ok (db.map (fun p => if p.id = pid then
      { p with title := r.title, slug := slugify r.title,
               content := sanitizeContent r.content, category := r.category,
               meta_title := r.meta_title,
               meta_description := r.meta_description,
               keywords := r.keywords, featured_image := r.featured_image,
               status := r.status, author := r.author,
               updated_at := now } else p), slugify r.title)

/-- DELETE /posts/:id (blog.js lines 271-300). -/
def deletePost (db : List Post) (pid : String) : Except BlogError (List Post) :=
  if !(db.any (fun p => p.id == pid)) then .error .notFound
  else .ok (db.filter (fun p => p.id != pid))

/-- PATCH /posts/:id/status (blog.js lines 321-344): one UPDATE of the
four flag and order columns with no existence check; the route always
answers with the success message, so the result is always ok.  The
UPDATE names neither timestamp column. -/
def setFlags (db : List Post) (pid : String) (isF isT : Bool)
    (fOrd tOrd : Option Int) : Except BlogError (List Post) :=
  .ok (db.map (fun p => if p.id = pid then
    { p with is_featured := isF, is_trending := isT,
             featured_order := fOrd, trending_order := tOrd } else p))

/-- POST /posts/reorder (blog.js lines 347-371): the written column is
trending_order exactly when the type field equals 'trending', otherwise
featured_order; each listed (id, order) pair is applied by its own
UPDATE, which names no timestamp column. -/
def reorderStep (kind : Option String) (acc : List Post)
    (it : String × Option Int) : List Post :=
  acc.map (fun p => if p.id = it.1 then
    (if kind = some "trending" then { p with trending_order := it.2 }
     else { p with featured_order := it.2 }) else p)

def reorderPosts (db : List Post) (items : List (String × Option Int))
    (kind : Option String) : List Post :=
  items.foldl (reorderStep kind) db

/-- MySQL collation of `ORDER BY created_at DESC`. -/
def createdDescRel (p q : Post) : Prop := q.created_at ≤ p.created_at

instance : DecidableRel createdDescRel := fun p q =>
  inferInstanceAs (Decidable (q.created_at ≤ p.created_at))

instance : IsTotal Post createdDescRel :=
  ⟨fun p q => Nat.le_total q.created_at p.created_at⟩

instance : IsTrans Post createdDescRel :=
  ⟨fun _ _ _ h1 h2 => Nat.le_trans h2 h1⟩

/-- GET /posts (blog.js lines 144-159): every row for an admin caller,
only published rows otherwise, ordered by created_at DESC. -/
def listPosts (admin : Bool) (db : List Post) : List Post :=
  (if admin then db else db.filter (fun p => p.status == "published")).insertionSort
    createdDescRel

/-- GET /posts/:slug (blog.js lines 162-182): the WHERE clause takes
the status filter only for a non-admin caller; the route answers with
the first matching row or a 404. -/
def getPostBySlug (admin : Bool) (db : List Post) (slug : String) :
    Except BlogError Post :=
  match (db.filter (fun p => p.slug == slug && (admin || p.status == "published"))).head? with
  | some p => .ok p
  | none => .error .notFound

/-- GET /categories (blog.js lines 303-318): DISTINCT category over the
rows visible to the caller, ordered by category. -/
def stringLE (a b : String) : Prop := a ≤ b

instance : DecidableRel stringLE := fun a b =>
  inferInstanceAs (Decidable (a ≤ b))

instance : IsTotal String stringLE := ⟨fun a b => le_total a b⟩

instance : IsTrans String stringLE := ⟨fun _ _ _ h1 h2 => le_trans h1 h2⟩

def categoriesList (admin : Bool) (db : List Post) : List String :=
  (((if admin then db else db.filter (fun p => p.status == "published")).map
    (fun p => p.category)).dedup).insertionSort stringLE

/-- MySQL collation of `ORDER BY <order column> ASC`: in ascending
order NULL sorts before every value. -/
def nullsFirstLE (a b : Option Int) : Prop :=
  match a, b with
  | none, _ => True
  | some _, none => False
  | some x, some y => x ≤ y

instance : DecidableRel nullsFirstLE := fun a b =>
  match a, b with
  | none, _ => isTrue trivial
  | some _, none => isFalse (fun h => h)
  | some x, some y => inferInstanceAs (Decidable (x ≤ y))

/-- `ORDER BY featured_order ASC, created_at DESC` (blog.js line 380)
under MySQL semantics: order column ascending with NULL first, ties by
created_at descending. -/
def featuredRel (p q : Post) : Prop :=
  if p.featured_order = q.featured_order then q.created_at ≤ p.created_at
  else nullsFirstLE p.featured_order q.featured_order

instance : DecidableRel featuredRel := fun p q =>
  inferInstanceAs (Decidable (if p.featured_order = q.featured_order
    then q.created_at ≤ p.created_at
    else nullsFirstLE p.featured_order q.featured_order))

/-- `ORDER BY trending_order ASC, created_at DESC` (blog.js line 398). -/
def trendingRel (p q : Post) : Prop :=
  if p.trending_order = q.trending_order then q.created_at ≤ p.created_at
  else nullsFirstLE p.trending_order q.trending_order

instance : DecidableRel trendingRel := fun p q =>
  inferInstanceAs (Decidable (if p.trending_order = q.trending_order
    then q.created_at ≤ p.created_at
    else nullsFirstLE p.trending_order q.trending_order))

/-- GET /posts/featured (blog.js lines 374-389): every row with
is_featured true, sorted as above; the query has no status filter and
the route has no passphrase check. -/
def featuredPosts (db : List Post) : List Post :=
  (db.filter (fun p => p.is_featured)).insertionSort featuredRel

/-- GET /posts/trending (blog.js lines 392-407): likewise with
is_trending and trending_order. -/
def trendingPosts (db : List Post) : List Post :=
  (db.filter (fun p => p.is_trending)).insertionSort trendingRel

/-- The claim-relevant consequences of surviving the filter: an allowed
name, hence no on-handler name, and no javascript: scheme in href or
src. -/
def attrSafe (a : String × String) : Bool :=
  allowedAttrNames.contains a.1 &&
  !(prefOf "on".toList a.1.toList) &&
  (!(uriAttrName a.1) || !(prefOf "javascript:".toList (cleanAttrValue a.2)))

/-- The safety predicate on a sanitized forest: every element carries an
allowed tag (in particular never script) and only attrSafe pairs. -/
def nodesSafe : List Node → Bool
  | [] => true
  | Node.text _ :: rest => nodesSafe rest
  | Node.elem tag attrs children :: rest =>
      allowedTag tag && !(tag == "script") && attrs.all attrSafe &&
      nodesSafe children && nodesSafe rest
termination_by ns => sizeOf ns
decreasing_by all_goals (simp_wf <;> omega)

/-! ### Sample records for witnesses and counterexamples -/

def samplePost : Post :=
  { id := "p1", title := "T", slug := "t", content := [], category := "c",
    meta_title := "", meta_description := "", keywords := "",
    featured_image := "", status := "published", author := "a",
    created_at := 1, updated_at := 1, is_featured := false,
    is_trending := false, featured_order := none, trending_order := none }

def otherPost : Post :=
  { samplePost with id := "p2", title := "U", slug := "u" }

def sampleCreateReq : CreateReq :=
  { title := "T!", content := [Node.text "x"], category := "c",
    meta_title := "", meta_description := "", keywords := "",
    featured_image := "", status := none, author := "a",
    is_featured := false, is_trending := false, featured_order := none,
    trending_order := none }

def sampleUpdateReq : UpdateReq :=
  { title := "T!", content := [Node.text "x"], category := "c",
    meta_title := "", meta_description := "", keywords := "",
    featured_image := "", status := "published", author := "a" }

def punctCreateReq : CreateReq :=
  { sampleCreateReq with title := "  ---  " }

def punctPost : Post :=
  { id := "id1", title := "  ---  ", slug := "", content := [Node.text "x"],
    category := "c", meta_title := "", meta_description := "", keywords := "",
    featured_image := "", status := "draft", author := "a",
    created_at := 7, updated_at := 7, is_featured := false,
    is_trending := false, featured_order := none, trending_order := none }

def draftFeatured : Post :=
  { samplePost with
    id := "d1"
    slug := "d"
    status := "draft"
    is_featured := true
    featured_order := some 1 }

def fpA : Post := { samplePost with
  id := "a"
  is_featured := true
  featured_order := some 2
  created_at := 1 }

def fpB : Post := { samplePost with
  id := "b"
  is_featured := true
  featured_order := none
  created_at := 2 }

def fpC : Post := { samplePost with
  id := "cc"
  is_featured := true
  featured_order := some 1
  created_at := 3 }

def basePost8 : Post := { samplePost with
  id := "p8"
  created_at := 1
  updated_at := 3 }

def flaggedPost8 : Post := { basePost8 with
  is_featured := true
  is_trending := true
  featured_order := some 5
  trending_order := some 6 }

def sampleFlagged : Post := { samplePost with
  is_featured := true
  is_trending := true }

/-! ### Lemmas about the URI check and the sanitizer -/

theorem exists_of_prefOf {p l : List Char} (h : prefOf p l = true) :
    ∃ t, l = p ++ t := by
  induction p generalizing l with
  | nil => exact ⟨l, rfl⟩
  | cons a as ih =>
      cases l with
      | nil => simp [prefOf] at h
      | cons b bs =>
          simp only [prefOf, Bool.and_eq_true, beq_iff_eq] at h
          obtain ⟨rfl, h2⟩ := h
          obtain ⟨t, rfl⟩ := ih h2
          exact ⟨t, rfl⟩

theorem js_not_pass {tag : String} {a : String × String}
    (hu : uriAttrName a.1 = true)
    (hjs : prefOf "javascript:".toList (cleanAttrValue a.2) = true) :
    attrPass tag a = false := by
  obtain ⟨t, ht⟩ := exists_of_prefOf hjs
  have hname : a.1 = "href" ∨ a.1 = "src" := by
    simp only [uriAttrName, Bool.or_eq_true, beq_iff_eq] at hu
    exact hu
  have hsafe : uriSafeNames.contains a.1 = false := by
    rcases hname with h1 | h1 <;> rw [h1] <;> rfl
  have hreg : uriRegexpMatches (cleanAttrValue a.2) = false := by
    rw [ht]; rfl
  have hdata : prefOf "data:".toList (cleanAttrValue a.2) = false := by
    rw [ht]; rfl
  have hempty : (a.2 == "") = false := by
    by_contra hc
    simp only [Bool.not_eq_false, beq_iff_eq] at hc
    rw [hc] at ht
    have h0 : ([] : List Char) = "javascript:".toList ++ t := ht
    simp at h0
  unfold attrPass
  rw [hsafe, hreg, hdata, hempty]
  simp

theorem allowed_name_not_on {n : String} (h : allowedAttrNames.contains n = true) :
    prefOf "on".toList n.toList = false := by
  have hm : n ∈ allowedAttrNames := by simpa using h
  fin_cases hm <;> rfl

theorem attrPass_safe {tag : String} {a : String × String}
    (h : attrPass tag a = true) : attrSafe a = true := by
  have hc : allowedAttrNames.contains a.1 = true := by
    unfold attrPass at h
    simp only [Bool.and_eq_true] at h
    exact h.1
  unfold attrSafe
  rw [hc, allowed_name_not_on hc]
  by_cases hu : uriAttrName a.1 = true
  · by_cases hjs : prefOf "javascript:".toList (cleanAttrValue a.2) = true
    · rw [js_not_pass hu hjs] at h
      exact absurd h (by simp)
    · simp only [Bool.not_eq_true] at hjs
      rw [hjs, hu]
      rfl
  · simp only [Bool.not_eq_true] at hu
    rw [hu]
    rfl

theorem nodesSafe_append (a b : List Node) :
    nodesSafe (a ++ b) = (nodesSafe a && nodesSafe b) := by
  induction a using nodesSafe.induct with
  | case1 => simp [nodesSafe]
  | case2 s rest ih => simp only [List.cons_append, nodesSafe, ih]
  | case3 tag attrs children rest ih1 ih2 =>
      simp only [List.cons_append, nodesSafe, ih2, Bool.and_assoc]

theorem elem_safe {tag : String} {a2 : List (String × String)} {cs : List Node}
    (hat : allowedTag tag = true)
    (ha : ∀ x ∈ a2, attrPass tag x = true)
    (hcs : nodesSafe cs = true) :
    nodesSafe [Node.elem tag a2 cs] = true := by
  simp only [nodesSafe]
  rw [hcs, hat]
  have hscr : (tag == "script") = false := by
    by_cases hts : tag = "script"
    · rw [hts] at hat
      exact absurd hat (by decide)
    · simp [hts]
  rw [hscr]
  have hall : a2.all attrSafe = true :=
    List.all_eq_true.mpr (fun x hx => attrPass_safe (ha x hx))
  rw [hall]
  rfl

theorem sanitize_nodesSafe (ns : List Node) :
    nodesSafe (sanitizeContent ns) = true := by
  induction ns using sanitizeContent.induct with
  | case1 => simp only [sanitizeContent, nodesSafe]
  | case2 s rest ih =>
      simp only [sanitizeContent, nodesSafe]
      exact ih
  | case3 tag attrs children rest ih1 ih2 =>
      simp only [sanitizeContent]
      rw [nodesSafe_append, ih2, Bool.and_true]
      by_cases hat : allowedTag tag = true
      · rw [if_pos hat]
        exact elem_safe hat (fun x hx => List.of_mem_filter hx) ih1
      · rw [if_neg hat]
        by_cases hfc : forbidContentsTags.contains tag = true
        · rw [if_pos hfc]
          simp only [nodesSafe]
        · rw [if_neg hfc]
          exact ih1

theorem nullsFirst_lex_total (a b : Option Int) (x y : Nat) :
    (if a = b then y ≤ x else nullsFirstLE a b) ∨
    (if b = a then x ≤ y else nullsFirstLE b a) := by
  by_cases h : a = b
  · rw [if_pos h, if_pos h.symm]
    exact Nat.le_total y x
  · rw [if_neg h, if_neg (fun hh => h hh.symm)]
    rcases a with _ | av
    · exact Or.inl trivial
    · rcases b with _ | bv
      · exact Or.inr trivial
      · exact Int.le_total av bv

theorem nullsFirst_lex_trans {a b c : Option Int} {x y z : Nat}
    (h1 : if a = b then y ≤ x else nullsFirstLE a b)
    (h2 : if b = c then z ≤ y else nullsFirstLE b c) :
    if a = c then z ≤ x else nullsFirstLE a c := by
  rcases a with _ | av <;> rcases b with _ | bv <;> rcases c with _ | cv <;>
      simp only [nullsFirstLE, Option.some.injEq] at h1 h2 ⊢ <;>
      try trivial
  all_goals split_ifs at h1 h2 ⊢ <;> omega

instance : IsTotal Post featuredRel :=
  ⟨fun p q => nullsFirst_lex_total p.featured_order q.featured_order
    p.created_at q.created_at⟩

instance : IsTrans Post featuredRel :=
  ⟨fun _ _ _ h1 h2 => nullsFirst_lex_trans h1 h2⟩

instance : IsTotal Post trendingRel :=
  ⟨fun p q => nullsFirst_lex_total p.trending_order q.trending_order
    p.created_at q.created_at⟩

instance : IsTrans Post trendingRel :=
  ⟨fun _ _ _ h1 h2 => nullsFirst_lex_trans h1 h2⟩

theorem reorderStep_created_updated (kind : Option String) (acc : List Post)
    (it : String × Option Int) :
    (reorderStep kind acc it).map (fun p => (p.created_at, p.updated_at)) =
      acc.map (fun p => (p.created_at, p.updated_at)) := by
  unfold reorderStep
  rw [List.map_map]
  apply List.map_congr_left
  intro p _
  simp only [Function.comp]
  split
  · split <;> rfl
  · rfl

theorem reorderPosts_created_updated (db : List Post)
    (items : List (String × Option Int)) (kind : Option String) :
    (reorderPosts db items kind).map (fun p => (p.created_at, p.updated_at)) =
      db.map (fun p => (p.created_at, p.updated_at)) := by
  unfold reorderPosts
  induction items generalizing db with
  | nil => rfl
  | cons it rest ih =>
      rw [List.foldl_cons, ih, reorderStep_created_updated]

theorem reorderStep_trending (kind : Option String) (hk : kind ≠ some "trending")
    (acc : List Post) (it : String × Option Int) :
    (reorderStep kind acc it).map Post.trending_order =
      acc.map Post.trending_order := by
  unfold reorderStep
  rw [List.map_map]
  apply List.map_congr_left
  intro p _
  simp only [Function.comp]
  by_cases hp : p.id = it.1
  · rw [if_pos hp, if_neg hk]
  · rw [if_neg hp]

theorem reorderPosts_trending (db : List Post)
    (items : List (String × Option Int)) (kind : Option String)
    (hk : kind ≠ some "trending") :
    (reorderPosts db items kind).map Post.trending_order =
      db.map Post.trending_order := by
  unfold reorderPosts
  induction items generalizing db with
  | nil => rfl
  | cons it rest ih =>
      rw [List.foldl_cons, ih, reorderStep_trending kind hk]

theorem reorderStep_featured (acc : List Post) (it : String × Option Int) :
    (reorderStep (some "trending") acc it).map Post.featured_order =
      acc.map Post.featured_order := by
  unfold reorderStep
  rw [List.map_map]
  apply List.map_congr_left
  intro p _
  simp only [Function.comp]
  by_cases hp : p.id = it.1
  · rw [if_pos hp, if_pos trivial]
  · rw [if_neg hp]

theorem reorderPosts_featured (db : List Post)
    (items : List (String × Option Int)) :
    (reorderPosts db items (some "trending")).map Post.featured_order =
      db.map Post.featured_order := by
  unfold reorderPosts
  induction items generalizing db with
  | nil => rfl
  | cons it rest ih =>
      rw [List.foldl_cons, ih, reorderStep_featured]

theorem reorderPosts_kind_irrelevant (db : List Post)
    (items : List (String × Option Int)) (kind : Option String)
    (hk : kind ≠ some "trending") :
    reorderPosts db items kind = reorderPosts db items none := by
  unfold reorderPosts
  induction items generalizing db with
  | nil => rfl
  | cons it rest ih =>
      rw [List.foldl_cons, List.foldl_cons, ih]
      congr 1
      unfold reorderStep
      apply List.map_congr_left
      intro p _
      by_cases hp : p.id = it.1
      · rw [if_pos hp, if_pos hp, if_neg hk, if_neg (by simp)]
      · rw [if_neg hp, if_neg hp]

theorem map_fun_id (db : List Post) : db.map (fun p => p) = db := by
  induction db with
  | nil => rfl
  | cons q rest ih => rw [List.map_cons, ih]

theorem map_if_ids_missing {db : List Post} {pid : String}
    (h : ∀ p ∈ db, p.id ≠ pid) (g : Post → Post) :
    db.map (fun p => if p.id = pid then g p else p) = db := by
  have h2 : db.map (fun p => if p.id = pid then g p else p) =
      db.map (fun p => p) :=
    List.map_congr_left (fun p hp => if_neg (h p hp))
  rw [h2, map_fun_id]

/-! ### Claims -/

/-- C9: PATCH /posts/:id/status performs no existence check: for an id
matching no stored post the operation still answers with the success
result and leaves every stored post unchanged. -/
theorem setFlags_missing_id_reports_success (db : List Post) (pid : String)
    (isF isT : Bool) (fOrd tOrd : Option Int)
    (h : ∀ p ∈ db, p.id ≠ pid) :
    setFlags db pid isF isT fOrd tOrd = .ok db := by
  unfold setFlags
  rw [map_if_ids_missing h]

/-- Witness for C9 at a concrete store and a missing id. -/
theorem setFlags_missing_id_reports_success_witness :
    setFlags [samplePost] "nope" true false none none = .ok [samplePost] :=
  setFlags_missing_id_reports_success [samplePost] "nope" true false none none
    (by
      intro p hp
      rw [List.mem_singleton] at hp
      subst hp
      decide)

/-- C10: reorder writes trending_order exactly when the kind field is
the string trending; every other kind, a missing one included, writes
the supplied order values into featured_order and leaves
trending_order untouched. -/
theorem reorder_kind_selects_column (db : List Post)
    (items : List (String × Option Int)) (kind : Option String)
    (h : kind ≠ some "trending") :
    reorderPosts db items kind = reorderPosts db items none ∧
    (reorderPosts db items kind).map Post.trending_order =
      db.map Post.trending_order ∧
    (reorderPosts db items (some "trending")).map Post.featured_order =
      db.map Post.featured_order ∧
    ∀ pid ord, reorderPosts db [(pid, ord)] kind =
      db.map (fun p => if p.id = pid then { p with featured_order := ord } else p) := by
  refine ⟨reorderPosts_kind_irrelevant db items kind h,
    reorderPosts_trending db items kind h,
    reorderPosts_featured db items, ?_⟩
  intro pid ord
  unfold reorderPosts reorderStep
  rw [List.foldl_cons, List.foldl_nil]
  apply List.map_congr_left
  intro p _
  by_cases hp : p.id = pid
  · rw [if_pos hp, if_neg h, if_pos hp]
  · rw [if_neg hp, if_neg hp]

/-- Witness for C10 at a concrete store and an unrecognized kind. -/
theorem reorder_kind_selects_column_witness :
    reorderPosts [samplePost] [("p1", some 3)] (some "other") =
      reorderPosts [samplePost] [("p1", some 3)] none :=
  (reorder_kind_selects_column [samplePost] [("p1", some 3)] (some "other")
    (by decide)).1

/-- C5: slug uniqueness in the workflow: create fails with the
duplicate-slug conflict when any stored post owns the slug computed
from the title; update fails with it when a post with another id owns
the recomputed slug; update succeeds when the recomputed slug is the
updated post's own current slug (under the store invariant that a slug
has one owner). -/
theorem slug_uniqueness_workflow (db : List Post) (newId : String) (now : Nat)
    (cr : CreateReq) (pid : String) (ur : UpdateReq) :
    (cr.title ≠ "" → cr.content ≠ [] → cr.category ≠ "" →
      (∃ p ∈ db, p.slug = slugify cr.title) →
      createPost db newId now cr = .error .duplicateSlug) ∧
    (ur.title ≠ "" → ur.content ≠ [] → ur.category ≠ "" →
      (∃ p ∈ db, p.id = pid) →
      (∃ p ∈ db, p.slug = slugify ur.title ∧ p.id ≠ pid) →
      updatePost db now pid ur = .error .duplicateSlug) ∧
    (ur.title ≠ "" → ur.content ≠ [] → ur.category ≠ "" →
      (∀ p ∈ db, ∀ q ∈ db, p.slug = q.slug → p.id = q.id) →
      (∃ q ∈ db, q.id = pid ∧ q.slug = slugify ur.title) →
      ∃ db2, updatePost db now pid ur = .ok (db2, slugify ur.title)) := by
  refine ⟨?_, ?_, ?_⟩
  · intro h1 h2 h3 hex
    obtain ⟨p, hp, hps⟩ := hex
    have hany : db.any (fun q => q.slug == slugify cr.title) = true :=
      List.any_eq_true.mpr ⟨p, hp, by simp [hps]⟩
    unfold createPost
    rw [if_neg (by simp [h1, h2, h3]), if_pos hany]
  · intro h1 h2 h3 hex hdup
    obtain ⟨q, hq, hqid⟩ := hex
    obtain ⟨p, hp, hps, hpid⟩ := hdup
    have hany0 : db.any (fun r => r.id == pid) = true :=
      List.any_eq_true.mpr ⟨q, hq, by simp [hqid]⟩
    have hany1 : db.any (fun r => r.slug == slugify ur.title && r.id != pid) = true :=
      List.any_eq_true.mpr ⟨p, hp, by simp [hps, bne_iff_ne, hpid]⟩
    unfold updatePost
    rw [if_neg (by simp [h1, h2, h3]), if_neg (by rw [hany0]; simp),
      if_pos hany1]
  · intro h1 h2 h3 huniq hex
    obtain ⟨q, hq, hqid, hqslug⟩ := hex
    have hany0 : db.any (fun r => r.id == pid) = true :=
      List.any_eq_true.mpr ⟨q, hq, by simp [hqid]⟩
    have hany1 : db.any (fun r => r.slug == slugify ur.title && r.id != pid) = false := by
      rw [List.any_eq_false]
      intro p hp
      intro hcon
      simp only [Bool.and_eq_true, beq_iff_eq, bne_iff_ne] at hcon
      obtain ⟨hslug, hid⟩ := hcon
      exact hid ((huniq p hp q hq (hslug.trans hqslug.symm)).trans hqid)
    unfold updatePost
    rw [if_neg (by simp [h1, h2, h3]), if_neg (by rw [hany0]; simp),
      if_neg (by rw [hany1]; simp)]
    exact ⟨_, rfl⟩

/-- Witness for C5 at a concrete store: a colliding create, a
colliding rename, and a rename to the post's own slug. -/
theorem slug_uniqueness_workflow_witness :
    createPost [samplePost] "n1" 5 sampleCreateReq = .error .duplicateSlug ∧
    updatePost [samplePost, otherPost] 5 "p2" sampleUpdateReq = .error .duplicateSlug ∧
    ∃ db2, updatePost [samplePost] 5 "p1" sampleUpdateReq =
      .ok (db2, slugify sampleUpdateReq.title) := by
  refine ⟨?_, ?_, ?_⟩
  · exact (slug_uniqueness_workflow [samplePost] "n1" 5 sampleCreateReq "x"
      sampleUpdateReq).1 (by decide) (fun h => List.noConfusion h) (by decide)
      ⟨samplePost, by simp, rfl⟩
  · exact (slug_uniqueness_workflow [samplePost, otherPost] "n1" 5 sampleCreateReq
      "p2" sampleUpdateReq).2.1 (by decide) (fun h => List.noConfusion h)
      (by decide) ⟨otherPost, by simp, rfl⟩
      ⟨samplePost, by simp, rfl, by decide⟩
  · exact (slug_uniqueness_workflow [samplePost] "n1" 5 sampleCreateReq
      "p1" sampleUpdateReq).2.2 (by decide) (fun h => List.noConfusion h)
      (by decide)
      (by
        intro p hp q hq hs
        rw [List.mem_singleton] at hp hq
        subst hp
        subst hq
        rfl)
      ⟨samplePost, by simp, rfl, rfl⟩

/-- C6 counterexample: a non-empty title of punctuation only slugifies
to the empty string, yet create does not fail with a validation error:
the insert is issued and a post with the empty slug is stored. -/
theorem empty_slug_accepted_cex :
    slugify "  ---  " = "" ∧
    createPost [] "id1" 7 punctCreateReq = .ok ([punctPost], "id1", "") := by
  refine ⟨rfl, ?_⟩
  unfold createPost
  rw [if_neg (fun hcon => by
    rcases hcon with h | h | h
    · exact absurd h (by decide)
    · exact List.cons_ne_nil _ _ h
    · exact absurd h (by decide))]
  rw [if_neg (by simp)]
  have hs : sanitizeContent [Node.text "x"] = [Node.text "x"] := by
    simp only [sanitizeContent]
  rw [show punctCreateReq.content = [Node.text "x"] from rfl, hs]
  rfl

/-- C6 (amended): a title that slugifies to the empty string is not
rejected: provided only that the three required fields are non-empty
and no other post blocks the empty slug, create inserts a post whose
slug is the empty string, and update rewrites the target post's slug
to the empty string. -/
theorem empty_slug_not_rejected (db : List Post) (newId : String) (now : Nat)
    (cr : CreateReq) (pid : String) (ur : UpdateReq) :
    (cr.title ≠ "" → cr.content ≠ [] → cr.category ≠ "" →
      slugify cr.title = "" → (∀ p ∈ db, p.slug ≠ "") →
      ∃ post, createPost db newId now cr = .ok (db ++ [post], newId, "") ∧
        post.slug = "") ∧
    (ur.title ≠ "" → ur.content ≠ [] → ur.category ≠ "" →
      slugify ur.title = "" → (∃ q ∈ db, q.id = pid) →
      (∀ p ∈ db, p.slug = "" → p.id = pid) →
      ∃ db2, updatePost db now pid ur = .ok (db2, "") ∧
        ∀ p ∈ db2, p.id = pid → p.slug = "") := by
  constructor
  · intro h1 h2 h3 hslug hno
    have hany : db.any (fun q => q.slug == slugify cr.title) = false := by
      rw [List.any_eq_false]
      intro p hp
      simp [hslug, hno p hp]
    unfold createPost
    rw [if_neg (by simp [h1, h2, h3]), if_neg (by rw [hany]; simp), hslug]
    exact ⟨_, rfl, rfl⟩
  · intro h1 h2 h3 hslug hex hown
    obtain ⟨q, hq, hqid⟩ := hex
    have hany0 : db.any (fun r => r.id == pid) = true :=
      List.any_eq_true.mpr ⟨q, hq, by simp [hqid]⟩
    have hany1 : db.any (fun r => r.slug == slugify ur.title && r.id != pid) = false := by
      rw [List.any_eq_false]
      intro p hp
      intro hcon
      simp only [Bool.and_eq_true, beq_iff_eq, bne_iff_ne, hslug] at hcon
      exact hcon.2 (hown p hp hcon.1)
    unfold updatePost
    rw [if_neg (by simp [h1, h2, h3]), if_neg (by rw [hany0]; simp),
      if_neg (by rw [hany1]; simp), hslug]
    refine ⟨_, rfl, ?_⟩
    intro p hp hpid
    obtain ⟨r, hr, rfl⟩ := List.mem_map.mp hp
    by_cases hrid : r.id = pid
    · rw [if_pos hrid]
    · rw [if_neg hrid] at hpid ⊢
      exact absurd hpid hrid

/-- Witness for the amended C6 at a concrete store. -/
theorem empty_slug_not_rejected_witness :
    ∃ post, createPost [samplePost] "id1" 7 punctCreateReq =
      .ok ([samplePost] ++ [post], "id1", "") ∧ post.slug = "" :=
  (empty_slug_not_rejected [samplePost] "id1" 7 punctCreateReq "p1"
    sampleUpdateReq).1 (by decide) (fun h => List.noConfusion h) (by decide)
    rfl
    (by
      intro p hp
      rw [List.mem_singleton] at hp
      subst hp
      decide)

/-- C1 counterexample: the featured listing runs with no status filter
and no passphrase check, so a draft post flagged featured is returned
to an unauthenticated caller, contradicting the claim that every
unauthenticated read path filters drafts with zero exceptions. -/
theorem featured_listing_leaks_draft_cex :
    draftFeatured ∈ featuredPosts [draftFeatured] ∧
    draftFeatured.status = "draft" := by
  constructor
  · have h : featuredPosts [draftFeatured] = [draftFeatured] := by
      unfold featuredPosts
      rw [show List.filter (fun p => p.is_featured) [draftFeatured] =
        [draftFeatured] from rfl]
      simp
    rw [h]
    exact List.mem_singleton.mpr rfl
  · rfl

/-- C1 (amended): the unauthenticated post listing, slug lookup, and
category listing do filter out every post whose status is not
published; the featured and trending listings are the exceptions, as
the counterexample shows. -/
theorem unauth_reads_filter_drafts (db : List Post) :
    (∀ p ∈ listPosts false db, p.status = "published") ∧
    (∀ s p, getPostBySlug false db s = .ok p → p.status = "published") ∧
    (∀ c ∈ categoriesList false db, ∃ p ∈ db, p.status = "published" ∧
      p.category = c) := by
  refine ⟨?_, ?_, ?_⟩
  · intro p hp
    unfold listPosts at hp
    rw [if_neg (by simp)] at hp
    have hp2 := (List.perm_insertionSort createdDescRel _).mem_iff.mp hp
    have hp3 := List.of_mem_filter hp2
    simpa using hp3
  · intro s p hp
    unfold getPostBySlug at hp
    cases hh : (db.filter
        (fun q => q.slug == s && (false || q.status == "published"))).head? with
    | none => rw [hh] at hp; exact absurd hp (by simp)
    | some q =>
        rw [hh] at hp
        have hqp : q = p := by
          simpa using hp
        subst hqp
        have hqmem : q ∈ db.filter
            (fun r => r.slug == s && (false || r.status == "published")) :=
          List.mem_of_mem_head? (by rw [hh]; exact rfl)
        have := List.of_mem_filter hqmem
        simp only [Bool.and_eq_true, Bool.false_or, beq_iff_eq] at this
        exact this.2
  · intro c hc
    unfold categoriesList at hc
    rw [if_neg (by simp)] at hc
    have hc2 := (List.perm_insertionSort stringLE _).mem_iff.mp hc
    have hc3 := List.mem_dedup.mp hc2
    obtain ⟨p, hp, rfl⟩ := List.mem_map.mp hc3
    exact ⟨p, List.mem_of_mem_filter hp, by simpa using List.of_mem_filter hp,
      rfl⟩

/-- Witness for the amended C1 at a concrete store. -/
theorem unauth_reads_filter_drafts_witness :
    samplePost.status = "published" := by
  refine (unauth_reads_filter_drafts [samplePost]).1 samplePost ?_
  have h : listPosts false [samplePost] = [samplePost] := by
    unfold listPosts
    rw [if_neg (by simp),
      show List.filter (fun p => p.status == "published") [samplePost] =
        [samplePost] from rfl]
    simp
  rw [h]
  exact List.mem_singleton.mpr rfl

/-- C7 counterexample: three featured posts with order values
[2, null, 1] come back as [null, 1, 2]: under MySQL semantics ORDER BY
featured_order ASC puts NULL before every value, not after, so the
claimed output [1, 2, null] is wrong. -/
theorem featured_nulls_first_cex :
    (featuredPosts [fpA, fpB, fpC]).map Post.featured_order =
      [none, some 1, some 2] ∧
    (featuredPosts [fpA, fpB, fpC]).map Post.featured_order ≠
      [some 1, some 2, none] := by
  constructor
  · decide
  · decide

/-- C7 (amended): the featured and trending listings return exactly the
flagged rows, sorted by the order column ascending with NULL first
(MySQL collation of ORDER BY ... ASC), ties broken by created_at
descending. -/
theorem featured_trending_mysql_ordering (db : List Post) :
    List.Sorted featuredRel (featuredPosts db) ∧
    (featuredPosts db).Perm (db.filter (fun p => p.is_featured)) ∧
    List.Sorted trendingRel (trendingPosts db) ∧
    (trendingPosts db).Perm (db.filter (fun p => p.is_trending)) :=
  ⟨List.sorted_insertionSort _ _, List.perm_insertionSort _ _,
   List.sorted_insertionSort _ _, List.perm_insertionSort _ _⟩

/-- C8 counterexample: the flag update is a mutation (the stored row
changes) yet its UPDATE names no timestamp column, so updated_at keeps
its old value instead of being refreshed; the route does not even
receive a clock. -/
theorem setFlags_keeps_updated_at_cex :
    setFlags [basePost8] "p8" true true (some 5) (some 6) = .ok [flaggedPost8] ∧
    flaggedPost8.updated_at = basePost8.updated_at ∧
    flaggedPost8 ≠ basePost8 := by
  refine ⟨rfl, rfl, ?_⟩
  intro h
  exact absurd (congrArg Post.is_featured h) (by decide)

/-- C8 (amended): created_at is written once by create and never
changed afterwards, and updated_at is refreshed by update (PUT); but
the flag update and the reorder operation leave both timestamps of
every post unchanged. -/
theorem timestamps_behavior (db : List Post) (newId : String) (now : Nat)
    (cr : CreateReq) (pid : String) (ur : UpdateReq) (isF isT : Bool)
    (fOrd tOrd : Option Int) (items : List (String × Option Int))
    (kind : Option String) :
    (∀ db2 i s, createPost db newId now cr = .ok (db2, i, s) →
      ∃ post, db2 = db ++ [post] ∧ post.created_at = now ∧
        post.updated_at = now) ∧
    (∀ db2 s, updatePost db now pid ur = .ok (db2, s) →
      db2.map Post.created_at = db.map Post.created_at ∧
      (∀ p ∈ db2, p.id = pid → p.updated_at = now) ∧
      (∀ p ∈ db2, p.id ≠ pid → p ∈ db)) ∧
    (∀ db2, setFlags db pid isF isT fOrd tOrd = .ok db2 →
      db2.map (fun p => (p.created_at, p.updated_at)) =
        db.map (fun p => (p.created_at, p.updated_at))) ∧
    (reorderPosts db items kind).map (fun p => (p.created_at, p.updated_at)) =
      db.map (fun p => (p.created_at, p.updated_at)) := by
  refine ⟨?_, ?_, ?_, reorderPosts_created_updated db items kind⟩
  · intro db2 i s h
    unfold createPost at h
    split_ifs at h
    simp only [Except.ok.injEq, Prod.mk.injEq] at h
    obtain ⟨hdb, hi, hs⟩ := h
    exact ⟨_, hdb.symm, rfl, rfl⟩
  · intro db2 s h
    unfold updatePost at h
    split_ifs at h
    simp only [Except.ok.injEq, Prod.mk.injEq] at h
    obtain ⟨hdb, hs⟩ := h
    subst hdb
    refine ⟨?_, ?_, ?_⟩
    · rw [List.map_map]
      apply List.map_congr_left
      intro p _
      simp only [Function.comp]
      by_cases hp : p.id = pid
      · rw [if_pos hp]
      · rw [if_neg hp]
    · intro p hp hpid
      obtain ⟨r, hr, rfl⟩ := List.mem_map.mp hp
      by_cases hrid : r.id = pid
      · rw [if_pos hrid]
      · rw [if_neg hrid] at hpid ⊢
        exact absurd hpid hrid
    · intro p hp hpid
      obtain ⟨r, hr, rfl⟩ := List.mem_map.mp hp
      by_cases hrid : r.id = pid
      · rw [if_pos hrid] at hpid
        exact absurd hrid hpid
      · rw [if_neg hrid]
        exact hr
  · intro db2 h
    unfold setFlags at h
    simp only [Except.ok.injEq] at h
    subst h
    rw [List.map_map]
    apply List.map_congr_left
    intro p _
    simp only [Function.comp]
    by_cases hp : p.id = pid
    · rw [if_pos hp]
    · rw [if_neg hp]

/-- Witness for the amended C8: a concrete flag update whose result
keeps both timestamps. -/
theorem timestamps_behavior_witness :
    [sampleFlagged].map (fun p => (p.created_at, p.updated_at)) =
      [samplePost].map (fun p => (p.created_at, p.updated_at)) :=
  (timestamps_behavior [samplePost] "x" 9 sampleCreateReq "p1" sampleUpdateReq
    true true none none [] none).2.2.1 [sampleFlagged] rfl

/-- C2 (code bug): the iframe rule the claim describes — accepted src
kept with the five attributes forced, rejected src replaced by the
placeholder paragraph — exists in the source only inside a
transformTags object (blog.js lines 40-61).  transformTags is an option
of the sanitize-html package that DOMPurify does not support, and
DOMPurify discards the whole per-call config anyway once setConfig has
run, so the rule is dead code.  Evaluated at the claim's own inputs:
the iframe whose src the validator rejects is kept as an iframe, src
and all, because https: passes the ALLOWED_URI_REGEXP; the iframe
whose src the validator accepts keeps the author's width instead of
the forced 100%; and the validator itself, which does tell the two
URLs apart, is never consulted. -/
theorem iframe_rules_never_applied :
    sanitizeContent [Node.elem "iframe" [("src", "https://evil.com/x")] []] =
      [Node.elem "iframe" [("src", "https://evil.com/x")] []] ∧
    sanitizeContent [Node.elem "iframe"
        [("src", "https://youtube.com/embed/abc123"), ("width", "50")] []] =
      [Node.elem "iframe"
        [("src", "https://youtube.com/embed/abc123"), ("width", "50")] []] ∧
    isValidYouTubeUrl "https://evil.com/x" = false ∧
    isValidYouTubeUrl "https://youtube.com/embed/abc123" = true := by
  refine ⟨?_, ?_, rfl, rfl⟩
  · simp only [sanitizeContent]
    rw [if_pos (show allowedTag "iframe" = true from rfl),
      show List.filter (attrPass "iframe") [("src", "https://evil.com/x")] =
        [("src", "https://evil.com/x")] from rfl, List.append_nil]
  · simp only [sanitizeContent]
    rw [if_pos (show allowedTag "iframe" = true from rfl),
      show List.filter (attrPass "iframe")
          [("src", "https://youtube.com/embed/abc123"), ("width", "50")] =
        [("src", "https://youtube.com/embed/abc123"), ("width", "50")] from rfl,
      List.append_nil]

/-- C3 counterexample: an anchor whose href value is the relative
reference ?onerror=x passes the URL check (a relative reference is
allowed), so the serialized sanitizer output still contains the literal
substring onerror=, refuting the claim that the output contains none of
the listed substrings; the value is inert attribute data, not an event
handler. -/
theorem sanitize_output_substring_cex :
    strContainsSub
      (renderNodes (sanitizeContent [Node.elem "a" [("href", "?onerror=x")] []]))
      "onerror=" = true ∧
    strContainsSub (renderNodes [Node.elem "a" [("href", "?onerror=x")] []])
      "onerror=" = true := by
  have hsan : sanitizeContent [Node.elem "a" [("href", "?onerror=x")] []] =
      [Node.elem "a" [("href", "?onerror=x")] []] := by
    simp only [sanitizeContent]
    rw [if_pos (show allowedTag "a" = true from rfl),
      show List.filter (attrPass "a") [("href", "?onerror=x")] =
        [("href", "?onerror=x")] from rfl, List.append_nil]
  have hrend : renderNodes [Node.elem "a" [("href", "?onerror=x")] []] =
      "<a href=\"?onerror=x\"></a>" := by
    simp only [renderNodes]
    rw [if_neg (show ¬(voidTags.contains "a" = true) from by decide)]
    rfl
  rw [hsan, hrend]
  exact ⟨rfl, rfl⟩

/-- C3 (amended): structurally, the sanitizer output is safe: every
element carries a tag from the allowlist (so no script element ever
appears), every kept name is on the allowlist and no name starts with
on, and no href or src value carries the javascript: scheme, even
hidden behind whitespace or case; the literal substrings of the claim
may still occur as inert text or attribute data, as the counterexample
shows. -/
theorem sanitize_output_safe (ns : List Node) :
    nodesSafe (sanitizeContent ns) = true :=
  sanitize_nodesSafe ns

